import Mathlib

/-!
# Verification of the yolo-cli MCP subsystem

Shallow embedding of the MCP (Model Context Protocol) server-manager core of
the yolo-cli repository:

* the configuration loader (`discoverConfigs` / `mergeConfigs` from
  `src/utils/mcp-config.ts`), and
* the server manager (`loadFromConfig`, `connectServer`, `getTools`,
  `callTool`, `cleanup` from `src/services/mcp.ts`).

JavaScript `Record` / `Map` values are embedded as association lists with
JS assignment semantics (`recSet` overwrites in place, else appends); server
and tool names are embedded as `List Char` so that `String.prototype.indexOf`
and `slice` have direct counterparts.  External effects (process spawn,
protocol handshake, tool listing, transport calls, transport close, file
reads) are parameters of the embedding: a behaviour value says what the
outside world did, and the embedded function computes exactly what the
TypeScript code computes from that outcome.
-/

set_option maxHeartbeats 1000000

namespace Yolo

/-- Embedded JS string (used for map keys and namespaced tool names, where
character-level indexing matters). -/
abbrev Name := List Char

/-- A JSON value, as produced by `JSON.parse`. -/
inductive Json where
  | null : Json
  | bool (b : Bool) : Json
  | num (n : Int) : Json
  | str (s : String) : Json
  | arr (elems : List Json) : Json
  | obj (fields : List (String × Json)) : Json

/-- JS object / `Map` lookup on an association list: first matching key. -/
def assocLookup [DecidableEq κ] : List (κ × α) → κ → Option α
  | [], _ => none
  | p :: rest, k => if p.1 = k then some p.2 else assocLookup rest k

/-- JS property assignment `m[k] = v` (also `Map.set`): overwrite the
existing entry in place, otherwise append a new entry. -/
def recSet [DecidableEq κ] (m : List (κ × α)) (k : κ) (v : α) : List (κ × α) :=
  if (assocLookup m k).isSome then
    m.map fun p => if p.1 = k then (k, v) else p
  else
    m ++ [(k, v)]

/-- `McpServerConfig` (src/types/mcp.ts): launch specification of one server. -/
structure McpServerConfig where
  command : String
  args : List String := []
  env : List (String × String) := []
  timeout : Option Nat := none
  url : Option String := none
deriving DecidableEq, Repr

/-- `McpConfig` (src/types/mcp.ts): map of server name to server config. -/
structure McpConfig where
  mcpServers : List (Name × McpServerConfig)
deriving DecidableEq, Repr

/-- Provenance tag of a merged entry. -/
inductive ConfigSource where
  | global : ConfigSource
  | project : ConfigSource
deriving DecidableEq, Repr

/-- `MergedConfig` (src/types/mcp.ts): merged servers plus provenance map. -/
structure MergedConfig where
  mcpServers : List (Name × McpServerConfig)
  sources : List (Name × ConfigSource)
deriving DecidableEq, Repr

/-- `mergeConfigs` (src/utils/mcp-config.ts): start from an empty merged
config, insert every global entry tagged `global`, then insert every project
entry tagged `project`, overwriting same-named global entries. -/
def mergeConfigs (global : Option McpConfig) (project : Option McpConfig) :
    MergedConfig :=
  let merged : MergedConfig := { mcpServers := [], sources := [] }
  let merged :=
    match global with
    | none => merged
    | some g =>
        g.mcpServers.foldl
          (fun m p =>
            { mcpServers := recSet m.mcpServers p.1 p.2
              sources := recSet m.sources p.1 ConfigSource.global })
          merged
  match project with
  | none => merged
  | some pr =>
      pr.mcpServers.foldl
        (fun m p =>
          { mcpServers := recSet m.mcpServers p.1 p.2
            sources := recSet m.sources p.1 ConfigSource.project })
        merged

/-! ## Association-list lemmas -/

section AssocLemmas

variable {κ α : Type} [DecidableEq κ]

/-- First-match alternative on options (JS `??` on lookup results). -/
def orE (a b : Option α) : Option α :=
  match a with
  | some x => some x
  | none => b

@[simp]
theorem orE_some_eq (x : α) (b : Option α) : orE (some x) b = some x := rfl

@[simp]
theorem orE_none (b : Option α) : orE (none : Option α) b = b := rfl

theorem assocLookup_nil (k : κ) : assocLookup ([] : List (κ × α)) k = none := rfl

theorem assocLookup_append (l₁ l₂ : List (κ × α)) (k : κ) :
    assocLookup (l₁ ++ l₂) k = orE (assocLookup l₁ k) (assocLookup l₂ k) := by
  induction l₁ with
  | nil => simp [assocLookup]
  | cons p t ih =>
      by_cases h : p.1 = k <;> simp [assocLookup, h, ih, orE]

theorem assocLookup_map_overwrite (m : List (κ × α)) (k : κ) (v : α) (k' : κ)
    (hne : k' ≠ k) :
    assocLookup (m.map fun p => if p.1 = k then (k, v) else p) k' =
      assocLookup m k' := by
  induction m with
  | nil => rfl
  | cons p t ih =>
      by_cases h : p.1 = k
      · simp [assocLookup, h, Ne.symm hne, ih]
      · simp only [List.map_cons, if_neg h]
        by_cases h' : p.1 = k' <;> simp [assocLookup, h', ih]

theorem assocLookup_map_overwrite_self (m : List (κ × α)) (k : κ) (v : α)
    (hsome : (assocLookup m k).isSome) :
    assocLookup (m.map fun p => if p.1 = k then (k, v) else p) k = some v := by
  induction m with
  | nil => simp [assocLookup] at hsome
  | cons p t ih =>
      by_cases h : p.1 = k
      · simp [assocLookup, h]
      · simp only [assocLookup, if_neg h] at hsome
        simp [assocLookup, h, ih hsome]

theorem assocLookup_recSet_self (m : List (κ × α)) (k : κ) (v : α) :
    assocLookup (recSet m k v) k = some v := by
  unfold recSet
  by_cases h : (assocLookup m k).isSome
  · simpa [h] using assocLookup_map_overwrite_self m k v h
  · simp only [h, if_false, Bool.false_eq_true, if_neg]
    rw [assocLookup_append]
    have : assocLookup m k = none := by
      cases hm : assocLookup m k
      · rfl
      · simp [hm] at h
    simp [this, assocLookup]

theorem assocLookup_recSet_other (m : List (κ × α)) (k : κ) (v : α) (k' : κ)
    (hne : k' ≠ k) :
    assocLookup (recSet m k v) k' = assocLookup m k' := by
  unfold recSet
  by_cases h : (assocLookup m k).isSome
  · simpa [h] using assocLookup_map_overwrite m k v k' hne
  · simp only [h, if_false, Bool.false_eq_true, if_neg]
    rw [assocLookup_append]
    cases hm : assocLookup m k' <;> simp [assocLookup, Ne.symm hne, orE]

theorem assocLookup_none_iff (l : List (κ × α)) (k : κ) :
    assocLookup l k = none ↔ k ∉ l.map Prod.fst := by
  induction l with
  | nil => simp [assocLookup]
  | cons p t ih =>
      by_cases h : p.1 = k
      · simp only [assocLookup, if_pos h, List.map_cons, List.mem_cons]
        constructor
        · intro hfalse
          exact absurd hfalse (by simp)
        · intro hnot
          exact absurd (Or.inl h.symm) hnot
      · simp only [assocLookup, if_neg h, ih, List.map_cons, List.mem_cons]
        constructor
        · intro hnot hmem
          rcases hmem with hm | hm
          · exact h hm.symm
          · exact hnot hm
        · intro hnot hm
          exact hnot (Or.inr hm)

/-- Lookup in the reversed list (the "last occurrence wins" view of JS
object-building) agrees with plain lookup when keys are unique. -/
theorem assocLookup_reverse_of_nodup (l : List (κ × α)) (k : κ)
    (h : (l.map Prod.fst).Nodup) :
    assocLookup l.reverse k = assocLookup l k := by
  induction l with
  | nil => rfl
  | cons p t ih =>
      simp only [List.map_cons, List.nodup_cons] at h
      rw [List.reverse_cons, assocLookup_append]
      by_cases hk : p.1 = k
      · have ht : assocLookup t k = none := by
          rw [assocLookup_none_iff]
          rw [hk] at h
          exact h.1
        have htr : assocLookup t.reverse k = none := by
          rw [assocLookup_none_iff]
          rw [List.map_reverse, List.mem_reverse, ← assocLookup_none_iff]
          exact ht
        simp [htr, assocLookup, hk, ht]
      · rw [ih h.2]
        cases hm : assocLookup t k <;> simp [assocLookup, hk, hm, orE]

theorem orE_assoc (a b c : Option α) : orE (orE a b) c = orE a (orE b c) := by
  cases a <;> rfl

theorem orE_none_right (a : Option α) : orE a none = a := by
  cases a <;> rfl

theorem assocLookup_singleton (k k' : κ) (v : α) :
    assocLookup [(k, v)] k' = if k = k' then some v else none := rfl

/-- After folding `recSet`-insertions of `(q.1, f q)` over a list, lookup is
"last occurrence in the list wins, else the initial map". -/
theorem assocLookup_foldl_recSet {β : Type} (f : κ × α → β) (l : List (κ × α))
    (m : List (κ × β)) (k : κ) :
    assocLookup (l.foldl (fun r q => recSet r q.1 (f q)) m) k =
      orE (assocLookup ((l.map fun q => (q.1, f q)).reverse) k)
        (assocLookup m k) := by
  induction l generalizing m with
  | nil => simp [assocLookup]
  | cons q t ih =>
      rw [List.foldl_cons, ih]
      rw [List.map_cons, List.reverse_cons, assocLookup_append, orE_assoc]
      congr 1
      rw [assocLookup_singleton]
      by_cases hk : q.1 = k
      · rw [if_pos hk, hk, assocLookup_recSet_self]
        rfl
      · rw [if_neg hk, orE_none, assocLookup_recSet_other _ _ _ _ (Ne.symm hk)]

theorem assocLookup_map_const {β : Type} (l : List (κ × α)) (c : β) (k : κ) :
    assocLookup (l.map fun q => (q.1, c)) k =
      (assocLookup l k).map fun _ => c := by
  induction l with
  | nil => rfl
  | cons q t ih =>
      by_cases hk : q.1 = k <;> simp [assocLookup, hk, ih]

/-- Value-insertion special case of `assocLookup_foldl_recSet`. -/
theorem assocLookup_foldl_recSet_snd (l : List (κ × α)) (m : List (κ × α))
    (k : κ) :
    assocLookup (l.foldl (fun r q => recSet r q.1 q.2) m) k =
      orE (assocLookup l.reverse k) (assocLookup m k) := by
  have h := assocLookup_foldl_recSet (fun q : κ × α => q.2) l m k
  simpa using h

/-- Constant-value special case of `assocLookup_foldl_recSet`. -/
theorem assocLookup_foldl_recSet_const {β : Type} (c : β) (l : List (κ × α))
    (m : List (κ × β)) (k : κ) :
    assocLookup (l.foldl (fun r q => recSet r q.1 c) m) k =
      orE ((assocLookup l.reverse k).map fun _ => c) (assocLookup m k) := by
  have h := assocLookup_foldl_recSet (fun _ : κ × α => c) l m k
  rw [h]
  congr 1
  rw [← List.map_reverse, assocLookup_map_const]

end AssocLemmas

/-- The servers of an optional config (`null` behaves as an empty object). -/
def configServers : Option McpConfig → List (Name × McpServerConfig)
  | none => []
  | some c => c.mcpServers

/-- The merge fold updates the two maps of a `MergedConfig` componentwise. -/
theorem mergeFold_split (tag : ConfigSource) (l : List (Name × McpServerConfig))
    (m : MergedConfig) :
    l.foldl
        (fun m p =>
          { mcpServers := recSet m.mcpServers p.1 p.2
            sources := recSet m.sources p.1 tag })
        m =
      { mcpServers := l.foldl (fun r p => recSet r p.1 p.2) m.mcpServers
        sources := l.foldl (fun r p => recSet r p.1 tag) m.sources } := by
  induction l generalizing m with
  | nil => rfl
  | cons q t ih =>
      simp only [List.foldl_cons]
      rw [ih]

/-- Lookup characterization of `mergeConfigs`: project entries shadow global
entries, and the provenance map records which side won. -/
theorem mergeConfigs_lookup (g p : Option McpConfig) (k : Name) :
    assocLookup (mergeConfigs g p).mcpServers k =
      orE (assocLookup (configServers p).reverse k)
        (assocLookup (configServers g).reverse k) ∧
    assocLookup (mergeConfigs g p).sources k =
      orE ((assocLookup (configServers p).reverse k).map
          fun _ => ConfigSource.project)
        ((assocLookup (configServers g).reverse k).map
          fun _ => ConfigSource.global) := by
  have hmain :
      mergeConfigs g p =
        { mcpServers :=
            (configServers p).foldl (fun r q => recSet r q.1 q.2)
              ((configServers g).foldl (fun r q => recSet r q.1 q.2) [])
          sources :=
            (configServers p).foldl
              (fun r q => recSet r q.1 ConfigSource.project)
              ((configServers g).foldl
                (fun r q => recSet r q.1 ConfigSource.global) []) } := by
    cases g <;> cases p <;>
      simp [mergeConfigs, configServers, mergeFold_split]
  rw [hmain]
  constructor
  · rw [assocLookup_foldl_recSet_snd, assocLookup_foldl_recSet_snd,
      assocLookup_nil, orE_none_right]
  · rw [assocLookup_foldl_recSet_const, assocLookup_foldl_recSet_const,
      assocLookup_nil, orE_none_right]

/-! ## Claim C2: merge precedence and provenance -/

/-- **C2.** `mergeConfigs` is fully characterized by precedence and
provenance: every server name present in the project config maps in the
result to exactly the project entry with source `project` (replacing any
same-named global entry), every name present only in the global config maps
to the global entry with source `global`, no other names appear, and merging
two nulls yields the empty `MergedConfig`.  The `Nodup` hypotheses reflect
that JS object keys are unique. -/
theorem mergeConfigs_precedence_provenance (G P : McpConfig)
    (hG : (G.mcpServers.map Prod.fst).Nodup)
    (hP : (P.mcpServers.map Prod.fst).Nodup) :
    (∀ s c, assocLookup P.mcpServers s = some c →
      assocLookup (mergeConfigs (some G) (some P)).mcpServers s = some c ∧
      assocLookup (mergeConfigs (some G) (some P)).sources s =
        some ConfigSource.project) ∧
    (∀ s c, assocLookup P.mcpServers s = none →
      assocLookup G.mcpServers s = some c →
      assocLookup (mergeConfigs (some G) (some P)).mcpServers s = some c ∧
      assocLookup (mergeConfigs (some G) (some P)).sources s =
        some ConfigSource.global) ∧
    (∀ s, assocLookup P.mcpServers s = none →
      assocLookup G.mcpServers s = none →
      assocLookup (mergeConfigs (some G) (some P)).mcpServers s = none ∧
      assocLookup (mergeConfigs (some G) (some P)).sources s = none) ∧
    mergeConfigs none none = { mcpServers := [], sources := [] } := by
  refine ⟨?_, ?_, ?_, rfl⟩
  · intro s c hs
    obtain ⟨h1, h2⟩ := mergeConfigs_lookup (some G) (some P) s
    simp only [configServers] at h1 h2
    rw [assocLookup_reverse_of_nodup _ _ hP, hs] at h1 h2
    exact ⟨by rw [h1]; rfl, by rw [h2]; rfl⟩
  · intro s c hpnone hg
    obtain ⟨h1, h2⟩ := mergeConfigs_lookup (some G) (some P) s
    simp only [configServers] at h1 h2
    rw [assocLookup_reverse_of_nodup _ _ hP, hpnone,
      assocLookup_reverse_of_nodup _ _ hG, hg] at h1 h2
    exact ⟨by rw [h1]; rfl, by rw [h2]; rfl⟩
  · intro s hpnone hgnone
    obtain ⟨h1, h2⟩ := mergeConfigs_lookup (some G) (some P) s
    simp only [configServers] at h1 h2
    rw [assocLookup_reverse_of_nodup _ _ hP, hpnone,
      assocLookup_reverse_of_nodup _ _ hG, hgnone] at h1 h2
    exact ⟨by rw [h1]; rfl, by rw [h2]; rfl⟩

/-- Sample configs used to instantiate the claim theorems on concrete data
(mirrors Scenario C of the spec: global `github`, project `github` and
`filesystem`). -/
def cfgA : McpServerConfig := { command := "npx", args := ["-y", "gh-a"] }

def cfgB : McpServerConfig := { command := "npx", args := ["-y", "gh-b"] }

def cfgC : McpServerConfig := { command := "npx", args := ["-y", "fs-c"] }

def githubName : Name := ['g', 'i', 't', 'h', 'u', 'b']

def filesystemName : Name := ['f', 'i', 'l', 'e', 's', 'y', 's', 't', 'e', 'm']

def globalEx : McpConfig := { mcpServers := [(githubName, cfgA)] }

def projectEx : McpConfig :=
  { mcpServers := [(githubName, cfgB), (filesystemName, cfgC)] }

/-- Witness for C2 at concrete configs: the shared name `github` resolves to
the project entry with provenance `project`. -/
theorem mergeConfigs_precedence_provenance_witness :
    assocLookup (mergeConfigs (some globalEx) (some projectEx)).mcpServers
        githubName = some cfgB ∧
    assocLookup (mergeConfigs (some globalEx) (some projectEx)).sources
        githubName = some ConfigSource.project :=
  (mergeConfigs_precedence_provenance globalEx projectEx (by decide)
      (by decide)).1 githubName cfgB (by decide)

/-! ## Server manager embedding (src/services/mcp.ts) -/

/-! The subset of `MCP_ERROR_CODES` (src/types/mcp.ts) used by the manager. -/

namespace MCP_ERROR_CODES

def SPAWN_FAILED : String := "SPAWN_FAILED"

def CONNECT_TIMEOUT : String := "CONNECT_TIMEOUT"

def SERVER_CRASHED : String := "SERVER_CRASHED"

def TOOL_NOT_FOUND : String := "TOOL_NOT_FOUND"

def TOOL_EXECUTION_FAILED : String := "TOOL_EXECUTION_FAILED"

end MCP_ERROR_CODES

/-- `McpServerState` (src/types/mcp.ts): connection lifecycle states. -/
inductive McpServerState where
  | created
  | connecting
  | initialized
  | operating
  | failed
  | closed
deriving DecidableEq, Repr

/-- The string value of each state (the TS enum values, interpolated into
the `SERVER_CRASHED` message). -/
def McpServerState.str : McpServerState → String
  | .created => "created"
  | .connecting => "connecting"
  | .initialized => "initialized"
  | .operating => "operating"
  | .failed => "failed"
  | .closed => "closed"

/-- A raw JS exception as thrown by the SDK / runtime: an optional `code`
property (e.g. `"ENOENT"` on spawn of a missing command) and a message. -/
structure JsError where
  code : Option String := none
  message : String
deriving DecidableEq, Repr

/-- One entry of a `listTools` response (`description` is optional in the
protocol; `connectServer` defaults it to the empty string). -/
structure RawTool where
  name : Name
  description : Option String := none
  inputSchema : Json := Json.null

/-- `McpTool` (src/types/mcp.ts).  The `server` back-reference of the source
is a circular alias to the owning instance and is omitted; `serverName`
carries the same routing information. -/
structure McpTool where
  name : Name
  originalName : Name
  description : String
  inputSchema : Json
  serverName : Name

/-- `McpServerError` (src/types/mcp.ts).  `timestamp` (wall clock) and
`details` (the raw JS error object) are omitted from the embedding. -/
structure McpServerError where
  code : String
  message : String
  serverName : Name
  configPath : String
deriving DecidableEq, Repr

/-- `McpServerInstance` (src/types/mcp.ts).  The `client` transport handle
is external (represented by the behaviour parameters) and `startedAt` is
wall clock; both are omitted. -/
structure McpServerInstance where
  name : Name
  config : McpServerConfig
  state : McpServerState
  tools : List McpTool
  source : ConfigSource
  error : Option McpServerError := none

/-- What the outside world did during one `connectServer` attempt:
`client.connect` threw (spawn / handshake failure), `client.listTools`
threw, or both succeeded and the provider reported the given tools. -/
inductive ConnectBehavior where
  | spawnErr (e : JsError)
  | listErr (e : JsError)
  | ok (tools : List RawTool)

/-- The two-character namespacing separator `'__'`. -/
def sep : Name := ['_', '_']

/-- The namespaced tool name `` `${name}__${tool.name}` `` built by
`connectServer`. -/
def namespacedName (server tool : Name) : Name := server ++ sep ++ tool

/-- One element of the `tools.map(...)` in `connectServer`. -/
def mkTool (server : Name) (t : RawTool) : McpTool :=
  { name := namespacedName server t.name
    originalName := t.name
    description := t.description.getD ""
    inputSchema := t.inputSchema
    serverName := server }

/-- `connectServer` (src/services/mcp.ts): build the instance, walk the
state machine `created → connecting → initialized → operating`, and on any
thrown error set state `failed`, attach a structured error (the source
always uses code `CONNECT_TIMEOUT` here), and rethrow the original error
(returned as the second component). -/
def connectServer (name : Name) (config : McpServerConfig)
    (beh : ConnectBehavior) : McpServerInstance × Option JsError :=
  let inst0 : McpServerInstance :=
    { name := name, config := config, state := McpServerState.created
      tools := [], source := ConfigSource.global, error := none }
  let inst1 := { inst0 with state := McpServerState.connecting }
  match beh with
  | .spawnErr e =>
      ({ inst1 with
          state := McpServerState.failed
          error := some
            { code := MCP_ERROR_CODES.CONNECT_TIMEOUT, message := e.message
              serverName := name, configPath := "" } }, some e)
  | .listErr e =>
      let inst2 := { inst1 with state := McpServerState.initialized }
      ({ inst2 with
          state := McpServerState.failed
          error := some
            { code := MCP_ERROR_CODES.CONNECT_TIMEOUT, message := e.message
              serverName := name, configPath := "" } }, some e)
  | .ok rawTools =>
      let inst2 := { inst1 with state := McpServerState.initialized }
      let inst3 := { inst2 with tools := rawTools.map (mkTool name) }
      ({ inst3 with state := McpServerState.operating }, none)

/-- The manager's private state: the `servers` map and the `tools` index
(both JS `Map`s, embedded as in-order association lists). -/
structure ManagerState where
  servers : List (Name × McpServerInstance)
  tools : List (Name × McpTool)

/-- The loop body of `getTools`: an `operating` server appends its tools to
the result and registers each in the tool index; any other state
contributes nothing. -/
def getToolsStep (acc : List McpTool × List (Name × McpTool))
    (p : Name × McpServerInstance) : List McpTool × List (Name × McpTool) :=
  if p.2.state = McpServerState.operating then
    (acc.1 ++ p.2.tools,
     p.2.tools.foldl (fun ix t => recSet ix t.name t) acc.2)
  else acc

/-- `getTools` (src/services/mcp.ts): walk the servers map in insertion
order; every `operating` server contributes its tools to the returned list
and upserts them into the tool index. -/
def getTools (st : ManagerState) : List McpTool × ManagerState :=
  let r := st.servers.foldl getToolsStep ([], st.tools)
  (r.1, { st with tools := r.2 })

/-- `toolName.indexOf('__')`: index of the first occurrence of the
separator, `none` when absent (JS `-1`). -/
def indexOfSep : Name → Option Nat
  | [] => none
  | c :: rest =>
      if c = '_' ∧ rest.head? = some '_' then some 0
      else (indexOfSep rest).map (· + 1)

/-- Tool-call arguments (`Record<string, any>`). -/
abbrev Args := List (String × Json)

/-- What the transport did for one `client.callTool` invocation. -/
inductive CallOutcome where
  | ok (content : List Json)
  | threw (e : JsError)

/-- The `error` field of a failed `ToolResult`. -/
structure ToolCallError where
  code : String
  message : String
  toolName : Name
  arguments : Args

/-- The `metadata` field of a successful `ToolResult` (`durationMs` is wall
clock and omitted). -/
structure ToolCallMeta where
  serverName : Name
  toolName : Name

/-- `ToolResult`: success with content and metadata, or structured
failure. -/
inductive ToolResult where
  | ok (content : List Json) (meta : ToolCallMeta)
  | fail (e : ToolCallError)

/-- `callTool` (src/services/mcp.ts): parse the namespaced name, look up
the server, check its state, forward to the transport, and convert any
thrown transport error into a `TOOL_EXECUTION_FAILED` result. `env` gives
the transport's outcome for a given server name and original tool name. -/
def callTool (st : ManagerState) (toolName : Name) (args : Args)
    (env : Name → Name → CallOutcome) : ToolResult :=
  match indexOfSep toolName with
  | none =>
      ToolResult.fail
        { code := MCP_ERROR_CODES.TOOL_NOT_FOUND
          message := "Invalid tool name format: " ++ toolName.asString ++
            ". Expected format: servername__toolname"
          toolName := toolName, arguments := args }
  | some separatorIndex =>
      let serverName := toolName.take separatorIndex
      let originalToolName := toolName.drop (separatorIndex + 2)
      match assocLookup st.servers serverName with
      | none =>
          ToolResult.fail
            { code := MCP_ERROR_CODES.TOOL_NOT_FOUND
              message := "Server not found: " ++ serverName.asString
              toolName := toolName, arguments := args }
      | some server =>
          if server.state ≠ McpServerState.operating then
            ToolResult.fail
              { code := MCP_ERROR_CODES.SERVER_CRASHED
                message := "Server '" ++ serverName.asString ++
                  "' is not operating (state: " ++ server.state.str ++ ")"
                toolName := toolName, arguments := args }
          else
            match env serverName originalToolName with
            | .ok content =>
                ToolResult.ok content
                  { serverName := serverName, toolName := originalToolName }
            | .threw e =>
                ToolResult.fail
                  { code := MCP_ERROR_CODES.TOOL_EXECUTION_FAILED
                    message := e.message
                    toolName := toolName, arguments := args }

/-- The per-server body of `cleanup`: a successful `client.close()` sets the
state to `closed`; a throwing close is swallowed (warning logged, state
unchanged). -/
def closeServer (inst : McpServerInstance) (closeOutcome : Option JsError) :
    McpServerInstance :=
  match closeOutcome with
  | none => { inst with state := McpServerState.closed }
  | some _ => inst

/-- `cleanup` (src/services/mcp.ts): close every registered connection
(failures swallowed), then clear both the servers map and the tool index.
The first component is what the (externally aliased) instances become. -/
def cleanup (st : ManagerState) (closeBeh : Name → Option JsError) :
    List McpServerInstance × ManagerState :=
  let closed := st.servers.map fun p => closeServer p.2 (closeBeh p.1)
  (closed, { servers := [], tools := [] })

/-- `LoadResult` (src/types/mcp.ts); `durationMs` is wall clock and
omitted. -/
structure LoadResult where
  servers : List McpServerInstance
  errors : List McpServerError
  toolCount : Nat

def globalConfigPath : String := "~/.config/yolo-cli/mcp.json"

def projectConfigPath : String := ".yolo/mcp.json"

/-- The `McpServerError` that `loadFromConfig` records for a failed entry:
the raw error's own `code` property if present, else `SPAWN_FAILED`, and a
config path derived from provenance. -/
def loadErrorOf (config : MergedConfig) (name : Name) (e : JsError) :
    McpServerError :=
  { code := e.code.getD MCP_ERROR_CODES.SPAWN_FAILED
    message := e.message
    serverName := name
    configPath :=
      if assocLookup config.sources name = some ConfigSource.project then
        projectConfigPath
      else globalConfigPath }

/-- One settled per-server task of `loadFromConfig`: on success stamp the
provenance on the instance, push it, and register it in the servers map; on
failure record a `McpServerError`.  The `try/catch` surrounds only the
connect attempt, so one entry's failure never touches a sibling's record. -/
def loadStep (config : MergedConfig) (env : Name → ConnectBehavior)
    (acc : ManagerState × List McpServerInstance × List McpServerError)
    (p : Name × McpServerConfig) :
    ManagerState × List McpServerInstance × List McpServerError :=
  let source := (assocLookup config.sources p.1).getD ConfigSource.global
  let r := connectServer p.1 p.2 (env p.1)
  match r.2 with
  | none =>
      let inst := { r.1 with source := source }
      ({ acc.1 with servers := recSet acc.1.servers p.1 inst },
       acc.2.1 ++ [inst], acc.2.2)
  | some e => (acc.1, acc.2.1, acc.2.2 ++ [loadErrorOf config p.1 e])

/-- `loadFromConfig` (src/services/mcp.ts): settle every entry's connect
attempt (all-settle join), then compute the tool count via `getTools`. -/
def loadFromConfig (st : ManagerState) (config : MergedConfig)
    (env : Name → ConnectBehavior) : ManagerState × LoadResult :=
  let r := config.mcpServers.foldl (loadStep config env) (st, [], [])
  let g := getTools r.1
  (g.2, { servers := r.2.1, errors := r.2.2, toolCount := g.1.length })

/-! ## Load-result characterization -/

/-- Whether a connect behaviour ends in a thrown error. -/
def behFails : ConnectBehavior → Bool
  | .ok _ => false
  | .spawnErr _ => true
  | .listErr _ => true

/-- The record one settled connect attempt contributes to the
`LoadResult`: the provenance-stamped instance on success, the structured
error on failure. -/
def loadRecord (config : MergedConfig) (env : Name → ConnectBehavior)
    (p : Name × McpServerConfig) : Sum McpServerInstance McpServerError :=
  let r := connectServer p.1 p.2 (env p.1)
  match r.2 with
  | none =>
      Sum.inl { r.1 with
        source := (assocLookup config.sources p.1).getD ConfigSource.global }
  | some e => Sum.inr (loadErrorOf config p.1 e)

theorem loadStep_eq (config : MergedConfig) (env : Name → ConnectBehavior)
    (acc : ManagerState × List McpServerInstance × List McpServerError)
    (p : Name × McpServerConfig) :
    loadStep config env acc p =
      match loadRecord config env p with
      | Sum.inl inst =>
          ({ acc.1 with servers := recSet acc.1.servers p.1 inst },
           acc.2.1 ++ [inst], acc.2.2)
      | Sum.inr err => (acc.1, acc.2.1, acc.2.2 ++ [err]) := by
  unfold loadStep loadRecord
  cases h : (connectServer p.1 p.2 (env p.1)).2 <;> simp [h]

/-- The servers and errors lists accumulated by the load fold are exactly
the per-entry records, in entry order: each entry contributes its own
record independently of every sibling. -/
theorem loadFold_spec (config : MergedConfig) (env : Name → ConnectBehavior)
    (l : List (Name × McpServerConfig))
    (acc : ManagerState × List McpServerInstance × List McpServerError) :
    (l.foldl (loadStep config env) acc).2.1 =
      acc.2.1 ++ l.filterMap (fun p => (loadRecord config env p).getLeft?) ∧
    (l.foldl (loadStep config env) acc).2.2 =
      acc.2.2 ++ l.filterMap (fun p => (loadRecord config env p).getRight?) := by
  induction l generalizing acc with
  | nil => simp
  | cons p t ih =>
      rw [List.foldl_cons, loadStep_eq]
      cases h : loadRecord config env p with
      | inl inst =>
          obtain ⟨h1, h2⟩ := ih
            ({ acc.1 with servers := recSet acc.1.servers p.1 inst },
             acc.2.1 ++ [inst], acc.2.2)
          constructor
          · rw [h1]
            simp [h, List.filterMap_cons]
          · rw [h2]
            simp [h, List.filterMap_cons]
      | inr err =>
          obtain ⟨h1, h2⟩ := ih (acc.1, acc.2.1, acc.2.2 ++ [err])
          constructor
          · rw [h1]
            simp [h, List.filterMap_cons]
          · rw [h2]
            simp [h, List.filterMap_cons]

theorem loadRecord_getLeft_isSome (config : MergedConfig)
    (env : Name → ConnectBehavior) (p : Name × McpServerConfig) :
    ((loadRecord config env p).getLeft?).isSome = !behFails (env p.1) := by
  cases h : env p.1 <;>
    simp [loadRecord, connectServer, h, behFails, Sum.getLeft?]

theorem loadRecord_getRight_isSome (config : MergedConfig)
    (env : Name → ConnectBehavior) (p : Name × McpServerConfig) :
    ((loadRecord config env p).getRight?).isSome = behFails (env p.1) := by
  cases h : env p.1 <;>
    simp [loadRecord, connectServer, h, behFails, Sum.getRight?]

theorem length_filterMap_eq {α β : Type} (f : α → Option β) (l : List α) :
    (l.filterMap f).length = (l.filter fun x => (f x).isSome).length := by
  induction l with
  | nil => rfl
  | cons a t ih =>
      cases h : f a <;>
        simp [List.filterMap_cons, h, List.filter_cons, ih]

theorem length_filter_add_length_filter_not {α : Type} (q : α → Bool)
    (l : List α) :
    (l.filter q).length + (l.filter fun x => !q x).length = l.length := by
  induction l with
  | nil => rfl
  | cons a t ih =>
      cases h : q a <;> simp [List.filter_cons, h, ← ih] <;> omega

/-! ## Claim C1: failure isolation in loadFromConfig -/

/-- **C1.** For every starting registry, merged configuration, and
behaviour of the outside world, `loadFromConfig` returns exactly one
`errors` entry per failing connect attempt and exactly one `servers` entry
per successful one — the error count plus the server count is the entry
count, for every k, N, and ordering, so no failure aborts or removes a
sibling attempt's record. -/
theorem loadFromConfig_failure_isolation (st : ManagerState)
    (config : MergedConfig) (env : Name → ConnectBehavior) :
    (loadFromConfig st config env).2.errors.length =
      (config.mcpServers.filter fun p => behFails (env p.1)).length ∧
    (loadFromConfig st config env).2.servers.length =
      (config.mcpServers.filter fun p => !behFails (env p.1)).length ∧
    (loadFromConfig st config env).2.errors.length +
        (loadFromConfig st config env).2.servers.length =
      config.mcpServers.length := by
  obtain ⟨hs, he⟩ := loadFold_spec config env config.mcpServers (st, [], [])
  have hserv : (loadFromConfig st config env).2.servers =
      config.mcpServers.filterMap
        (fun p => (loadRecord config env p).getLeft?) := by
    simpa [loadFromConfig] using hs
  have herr : (loadFromConfig st config env).2.errors =
      config.mcpServers.filterMap
        (fun p => (loadRecord config env p).getRight?) := by
    simpa [loadFromConfig] using he
  have h1 : (loadFromConfig st config env).2.errors.length =
      (config.mcpServers.filter fun p => behFails (env p.1)).length := by
    rw [herr, length_filterMap_eq]
    congr 1
    exact List.filter_congr fun p _ => loadRecord_getRight_isSome config env p
  have h2 : (loadFromConfig st config env).2.servers.length =
      (config.mcpServers.filter fun p => !behFails (env p.1)).length := by
    rw [hserv, length_filterMap_eq]
    congr 1
    exact List.filter_congr fun p _ => loadRecord_getLeft_isSome config env p
  refine ⟨h1, h2, ?_⟩
  rw [h1, h2]
  exact length_filter_add_length_filter_not _ _

/-! ## Claim C7: no partial tool registration -/

/-- **C7.** A `connectServer` attempt has exactly two outcomes: the
connection reaches `operating` with every reported tool attached (each
namespaced) and nothing thrown, or it throws, the state is `failed`, and
the tools list is empty.  No outcome attaches only part of the discovered
tools or attaches tools outside the `operating` state. -/
theorem connectServer_no_partial_registration (name : Name)
    (config : McpServerConfig) (beh : ConnectBehavior) :
    ((connectServer name config beh).1.state = McpServerState.operating ∧
      (connectServer name config beh).2 = none ∧
      ∃ ts, beh = ConnectBehavior.ok ts ∧
        (connectServer name config beh).1.tools = ts.map (mkTool name)) ∨
    ((connectServer name config beh).1.state = McpServerState.failed ∧
      (connectServer name config beh).1.tools = [] ∧
      ∃ e, (connectServer name config beh).2 = some e) := by
  cases beh with
  | spawnErr e => exact Or.inr ⟨rfl, rfl, e, rfl⟩
  | listErr e => exact Or.inr ⟨rfl, rfl, e, rfl⟩
  | ok ts => exact Or.inl ⟨rfl, rfl, ts, rfl, rfl⟩

/-! ## Claim C6: failure classes and error codes -/

/-- A spawn-style failure: the runtime error for a nonexistent command
carries its own `code` property `"ENOENT"`. -/
def errEnoent : JsError := { code := some "ENOENT", message := "spawn nope ENOENT" }

/-- A later failure (tool listing), carrying no `code` property. -/
def errListing : JsError := { code := none, message := "Request timed out" }

def cfgNope : McpServerConfig := { command := "nope" }

def aName : Name := ['a']

def bName : Name := ['b']

/-- **C6 counterexample.** The structured error `connectServer` attaches is
not chosen from the taxonomy according to the failure class: a
process-not-found spawn failure and a tool-listing failure both get code
`CONNECT_TIMEOUT`.  Moreover the code the Manager records in
`LoadResult.errors` for the spawn failure is the raw exception's own
`"ENOENT"`, which is not a taxonomy code at all. -/
theorem connect_error_code_uniform_counterexample :
    ((connectServer aName cfgNope (ConnectBehavior.spawnErr errEnoent)).1.error.map
        McpServerError.code) = some MCP_ERROR_CODES.CONNECT_TIMEOUT ∧
    ((connectServer bName cfgNope (ConnectBehavior.listErr errListing)).1.error.map
        McpServerError.code) = some MCP_ERROR_CODES.CONNECT_TIMEOUT ∧
    (loadFromConfig { servers := [], tools := [] }
          { mcpServers := [(aName, cfgNope)]
            sources := [(aName, ConfigSource.global)] }
          (fun _ => ConnectBehavior.spawnErr errEnoent)).2.errors =
      [{ code := "ENOENT", message := "spawn nope ENOENT", serverName := aName
         configPath := globalConfigPath }] :=
  ⟨rfl, rfl, rfl⟩

/-- **C6 (amended).** When `connectServer` fails at spawn, handshake, or
tool-listing time, the connection transitions to `failed` and a structured
error is attached — but its code is always `CONNECT_TIMEOUT`, regardless of
the failure class; the original exception is rethrown to the Manager, which
records in the `LoadResult`'s errors list an error whose code is the raw
exception's own `code` property when present, else `SPAWN_FAILED`. -/
theorem connectServer_failure_recorded (st : ManagerState)
    (config : MergedConfig) (env : Name → ConnectBehavior) (name : Name)
    (sc : McpServerConfig) (e : JsError)
    (hmem : (name, sc) ∈ config.mcpServers)
    (hbeh : env name = ConnectBehavior.spawnErr e ∨
      env name = ConnectBehavior.listErr e) :
    (connectServer name sc (env name)).1.state = McpServerState.failed ∧
    (connectServer name sc (env name)).1.error =
      some { code := MCP_ERROR_CODES.CONNECT_TIMEOUT, message := e.message
             serverName := name, configPath := "" } ∧
    (connectServer name sc (env name)).2 = some e ∧
    loadErrorOf config name e ∈ (loadFromConfig st config env).2.errors := by
  have herrs : (loadFromConfig st config env).2.errors =
      config.mcpServers.filterMap
        (fun p => (loadRecord config env p).getRight?) := by
    simpa [loadFromConfig] using
      (loadFold_spec config env config.mcpServers (st, [], [])).2
  have hrec : (loadRecord config env (name, sc)).getRight? =
      some (loadErrorOf config name e) := by
    rcases hbeh with hb | hb <;> simp [loadRecord, connectServer, hb]
  have hmem' : loadErrorOf config name e ∈
      (loadFromConfig st config env).2.errors := by
    rw [herrs]
    exact List.mem_filterMap.mpr ⟨(name, sc), hmem, hrec⟩
  rcases hbeh with hb | hb <;> rw [hb] <;> exact ⟨rfl, rfl, rfl, hmem'⟩

/-- Witness for the amended C6 at a concrete configuration: a single server
whose spawn fails with `ENOENT`. -/
theorem connectServer_failure_recorded_witness :
    (connectServer aName cfgNope
        ((fun _ => ConnectBehavior.spawnErr errEnoent) aName)).1.state =
      McpServerState.failed ∧
    (connectServer aName cfgNope
        ((fun _ => ConnectBehavior.spawnErr errEnoent) aName)).1.error =
      some { code := MCP_ERROR_CODES.CONNECT_TIMEOUT
             message := errEnoent.message, serverName := aName
             configPath := "" } ∧
    (connectServer aName cfgNope
        ((fun _ => ConnectBehavior.spawnErr errEnoent) aName)).2 =
      some errEnoent ∧
    loadErrorOf
        { mcpServers := [(aName, cfgNope)]
          sources := [(aName, ConfigSource.global)] } aName errEnoent ∈
      (loadFromConfig { servers := [], tools := [] }
          { mcpServers := [(aName, cfgNope)]
            sources := [(aName, ConfigSource.global)] }
          (fun _ => ConnectBehavior.spawnErr errEnoent)).2.errors :=
  connectServer_failure_recorded { servers := [], tools := [] }
    { mcpServers := [(aName, cfgNope)]
      sources := [(aName, ConfigSource.global)] }
    (fun _ => ConnectBehavior.spawnErr errEnoent) aName cfgNope errEnoent
    (by decide) (Or.inl rfl)

/-! ## Claim C3: namespacing round-trip -/

/-- The split `callTool` performs: index of the first `'__'`, prefix before
it, suffix after its two characters. -/
def splitNamespaced (n : Name) : Option (Name × Name) :=
  (indexOfSep n).map fun i => (n.take i, n.drop (i + 2))

theorem indexOfSep_cons (c : Char) (rest : Name) :
    indexOfSep (c :: rest) =
      if c = '_' ∧ rest.head? = some '_' then some 0
      else (indexOfSep rest).map (· + 1) := rfl

theorem drop_append_length {α : Type} (s x : List α) (k : Nat) :
    (s ++ x).drop (s.length + k) = x.drop k := by
  induction s with
  | nil => simp
  | cons a t ih =>
      have hlen : (a :: t).length + k = (t.length + k) + 1 := by
        simp [List.length_cons]
        omega
      rw [List.cons_append, hlen, List.drop_succ_cons, ih]

/-- Where the first separator of `s ++ '__' ++ t` sits when `s` itself
contains no separator and does not end in `'_'`: exactly at `s.length`. -/
theorem indexOfSep_append_sep (s t : Name) (hno : indexOfSep s = none)
    (hlast : s.getLast? ≠ some '_') :
    indexOfSep (s ++ '_' :: '_' :: t) = some s.length := by
  induction s with
  | nil => simp [indexOfSep_cons]
  | cons c s' ih =>
      have hsplit : ¬(c = '_' ∧ s'.head? = some '_') ∧ indexOfSep s' = none := by
        by_cases hc : c = '_' ∧ s'.head? = some '_'
        · rw [indexOfSep_cons, if_pos hc] at hno
          exact absurd hno (by simp)
        · rw [indexOfSep_cons, if_neg hc] at hno
          exact ⟨hc, by simpa using hno⟩
      cases s' with
      | nil =>
          have hc : c ≠ '_' := fun h => hlast (by simp [h])
          rw [List.cons_append, List.nil_append, indexOfSep_cons,
            if_neg (by simp [hc])]
          simp [indexOfSep_cons]
      | cons c2 s'' =>
          have hlast' : (c2 :: s'').getLast? ≠ some '_' := by
            rwa [List.getLast?_cons_cons] at hlast
          have ihres := ih hsplit.2 hlast'
          rw [List.cons_append, indexOfSep_cons,
            if_neg (fun hcontra =>
              hsplit.1 ⟨hcontra.1, by simpa using hcontra.2⟩),
            ihres]
          simp [List.length_cons]

/-- **C3 counterexample.** The server name `"a_"` contains no occurrence of
the two-character separator `'__'`, yet splitting the namespaced name
`"a_" + "__" + "b" = "a___b"` at the first `'__'` (as `callTool` does)
yields `("a", "_b")`, not `("a_", "b")`: containing no separator is not
enough for the round-trip. -/
theorem namespacing_roundtrip_counterexample :
    indexOfSep ['a', '_'] = none ∧
    splitNamespaced (namespacedName ['a', '_'] ['b']) =
      some (['a'], ['_', 'b']) ∧
    splitNamespaced (namespacedName ['a', '_'] ['b']) ≠
      some (['a', '_'], ['b']) := by
  refine ⟨by decide, by decide, by decide⟩

/-- **C3 (amended).** For every server name `s` that contains no occurrence
of `'__'` **and does not end in `'_'`**, and every tool name `t`, splitting
the namespaced name `s ++ '__' ++ t` (the form `connectServer` constructs)
at the first `'__'` — as `callTool` does — recovers exactly `(s, t)`. -/
theorem namespacing_roundtrip (s t : Name) (hno : indexOfSep s = none)
    (hlast : s.getLast? ≠ some '_') :
    splitNamespaced (namespacedName s t) = some (s, t) := by
  have hjoin : namespacedName s t = s ++ '_' :: '_' :: t := by
    simp [namespacedName, sep]
  rw [splitNamespaced, hjoin, indexOfSep_append_sep s t hno hlast,
    Option.map_some']
  have h1 : (s ++ '_' :: '_' :: t).take s.length = s := List.take_left s _
  have h2 : (s ++ '_' :: '_' :: t).drop (s.length + 2) = t := by
    rw [drop_append_length]
    rfl
  rw [h1, h2]

/-- Witness for the amended C3 on a concrete pair of names. -/
theorem namespacing_roundtrip_witness :
    splitNamespaced (namespacedName ['g', 'h'] ['t', 'o']) =
      some (['g', 'h'], ['t', 'o']) :=
  namespacing_roundtrip ['g', 'h'] ['t', 'o'] (by decide) (by decide)

/-! ## Claim C4: callTool never throws, fixed failure dispatch -/

/-- **C4.** `callTool` is a total function into `ToolResult` (the embedding
of "never throws"), and its failure results follow a fixed dispatch: no
separator in the name gives `TOOL_NOT_FOUND` (invalid format) without
consulting any connection; an unregistered prefix gives `TOOL_NOT_FOUND`
(server not found); a non-`operating` matched connection gives
`SERVER_CRASHED` naming the current state; and a transport exception is
returned as a `TOOL_EXECUTION_FAILED` failed result. -/
theorem callTool_dispatch (st : ManagerState) (toolName : Name) (args : Args)
    (env : Name → Name → CallOutcome) :
    (indexOfSep toolName = none →
      callTool st toolName args env = ToolResult.fail
        { code := MCP_ERROR_CODES.TOOL_NOT_FOUND
          message := "Invalid tool name format: " ++ toolName.asString ++
            ". Expected format: servername__toolname"
          toolName := toolName, arguments := args }) ∧
    (∀ i, indexOfSep toolName = some i →
      assocLookup st.servers (toolName.take i) = none →
      callTool st toolName args env = ToolResult.fail
        { code := MCP_ERROR_CODES.TOOL_NOT_FOUND
          message := "Server not found: " ++ (toolName.take i).asString
          toolName := toolName, arguments := args }) ∧
    (∀ i server, indexOfSep toolName = some i →
      assocLookup st.servers (toolName.take i) = some server →
      server.state ≠ McpServerState.operating →
      callTool st toolName args env = ToolResult.fail
        { code := MCP_ERROR_CODES.SERVER_CRASHED
          message := "Server '" ++ (toolName.take i).asString ++
            "' is not operating (state: " ++ server.state.str ++ ")"
          toolName := toolName, arguments := args }) ∧
    (∀ i server e, indexOfSep toolName = some i →
      assocLookup st.servers (toolName.take i) = some server →
      server.state = McpServerState.operating →
      env (toolName.take i) (toolName.drop (i + 2)) = CallOutcome.threw e →
      callTool st toolName args env = ToolResult.fail
        { code := MCP_ERROR_CODES.TOOL_EXECUTION_FAILED
          message := e.message
          toolName := toolName, arguments := args }) := by
  refine ⟨?_, ?_, ?_, ?_⟩
  · intro h
    simp [callTool, h]
  · intro i h hlook
    simp [callTool, h, hlook]
  · intro i server h hlook hstate
    simp [callTool, h, hlook, hstate]
  · intro i server e h hlook hstate henv
    simp [callTool, h, hlook, hstate, henv]

/-- An always-succeeding transport, used to instantiate claims on concrete
data. -/
def okEnv : Name → Name → CallOutcome := fun _ _ => CallOutcome.ok []

/-- A transport that always throws, used to instantiate claims on concrete
data. -/
def throwEnv : Name → Name → CallOutcome :=
  fun _ _ => CallOutcome.threw { code := none, message := "boom" }

/-- A concrete operating instance for server `s` exposing tool `t`. -/
def sInstance : McpServerInstance :=
  { name := ['s'], config := cfgNope, state := McpServerState.operating
    tools := [mkTool ['s'] { name := ['t'] }], source := ConfigSource.global
    error := none }

/-- A registry holding only the operating server `s`. -/
def sState : ManagerState := { servers := [(['s'], sInstance)], tools := [] }

/-- Witness for C4 at concrete inputs: a name with no separator fails with
the invalid-format error, and a thrown transport call on a registered
operating server comes back as a `TOOL_EXECUTION_FAILED` result. -/
theorem callTool_dispatch_witness :
    callTool sState ['t'] [] okEnv = ToolResult.fail
      { code := MCP_ERROR_CODES.TOOL_NOT_FOUND
        message := "Invalid tool name format: " ++ (['t'] : Name).asString ++
          ". Expected format: servername__toolname"
        toolName := ['t'], arguments := [] } ∧
    callTool sState ['s', '_', '_', 't'] [] throwEnv = ToolResult.fail
      { code := MCP_ERROR_CODES.TOOL_EXECUTION_FAILED
        message := "boom"
        toolName := ['s', '_', '_', 't'], arguments := [] } :=
  ⟨(callTool_dispatch sState ['t'] [] okEnv).1 (by decide),
   (callTool_dispatch sState ['s', '_', '_', 't'] [] throwEnv).2.2.2 1
     sInstance { code := none, message := "boom" } (by decide) rfl rfl rfl⟩

/-! ## Claim C10: empty server-name prefix -/

/-- **C10.** A tool name beginning with the separator `'__'` passes the
separator-presence format check (`indexOf` returns `0`, not `-1`), so for
every arguments object, when no server is registered under the empty name,
`callTool` returns the `TOOL_NOT_FOUND` "Server not found" failure for the
empty server name — not the "invalid tool name format" failure. -/
theorem callTool_empty_prefix (st : ManagerState) (rest : Name) (args : Args)
    (env : Name → Name → CallOutcome)
    (hempty : assocLookup st.servers [] = none) :
    indexOfSep ('_' :: '_' :: rest) = some 0 ∧
    callTool st ('_' :: '_' :: rest) args env = ToolResult.fail
      { code := MCP_ERROR_CODES.TOOL_NOT_FOUND
        message := "Server not found: " ++ ([] : Name).asString
        toolName := '_' :: '_' :: rest, arguments := args } := by
  have hidx : indexOfSep ('_' :: '_' :: rest) = some 0 := by
    rw [indexOfSep_cons, if_pos ⟨rfl, rfl⟩]
  refine ⟨hidx, ?_⟩
  simp [callTool, hidx, hempty]

/-- Witness for C10: the empty registry at a concrete name `__t`. -/
theorem callTool_empty_prefix_witness :
    indexOfSep ('_' :: '_' :: ['t']) = some 0 ∧
    callTool { servers := [], tools := [] } ('_' :: '_' :: ['t']) [] okEnv =
      ToolResult.fail
        { code := MCP_ERROR_CODES.TOOL_NOT_FOUND
          message := "Server not found: " ++ ([] : Name).asString
          toolName := '_' :: '_' :: ['t'], arguments := [] } :=
  callTool_empty_prefix { servers := [], tools := [] } ['t'] [] okEnv rfl

/-! ## Claim C5: getTools and the tool index -/

/-- The flattened tool lists of the `operating` connections, in registry
order. -/
def operatingTools (l : List (Name × McpServerInstance)) : List McpTool :=
  (l.filter fun p => decide (p.2.state = McpServerState.operating)).flatMap
    fun p => p.2.tools

theorem getTools_fold (l : List (Name × McpServerInstance))
    (acc : List McpTool × List (Name × McpTool)) :
    l.foldl getToolsStep acc =
      (acc.1 ++ operatingTools l,
       (operatingTools l).foldl (fun ix t => recSet ix t.name t) acc.2) := by
  induction l generalizing acc with
  | nil => simp [operatingTools]
  | cons p t ih =>
      rw [List.foldl_cons]
      by_cases h : p.2.state = McpServerState.operating
      · rw [show getToolsStep acc p =
            (acc.1 ++ p.2.tools,
             p.2.tools.foldl (fun ix t => recSet ix t.name t) acc.2) from by
          simp [getToolsStep, h]]
        rw [ih]
        have hop : operatingTools (p :: t) = p.2.tools ++ operatingTools t := by
          simp [operatingTools, List.filter_cons, h]
        rw [hop, List.foldl_append, ← List.append_assoc]
      · rw [show getToolsStep acc p = acc from by simp [getToolsStep, h]]
        rw [ih]
        have hop : operatingTools (p :: t) = operatingTools t := by
          simp [operatingTools, List.filter_cons, h]
        rw [hop]

/-- **C5 counterexample.** `callTool` does not route through the manager's
namespaced-name → Tool index: in a state whose tool index contains exactly
the queried namespaced name (mapped to its tool) but whose server registry
is empty, `callTool` still fails with the "Server not found" lookup on the
registry, and its result is unchanged when that index is emptied.  The
index `getTools` maintains is therefore not "the index `callTool` uses for
routing". -/
theorem getTools_index_not_used_counterexample :
    callTool
        { servers := []
          tools := [(namespacedName ['s'] ['t'], mkTool ['s'] { name := ['t'] })] }
        (namespacedName ['s'] ['t']) [] okEnv =
      ToolResult.fail
        { code := MCP_ERROR_CODES.TOOL_NOT_FOUND
          message := "Server not found: " ++ (['s'] : Name).asString
          toolName := namespacedName ['s'] ['t'], arguments := [] } ∧
    callTool
        { servers := []
          tools := [(namespacedName ['s'] ['t'], mkTool ['s'] { name := ['t'] })] }
        (namespacedName ['s'] ['t']) [] okEnv =
      callTool { servers := [], tools := [] }
        (namespacedName ['s'] ['t']) [] okEnv := by
  refine ⟨?_, ?_⟩
  · rfl
  · rfl

/-- **C5 (amended).** `getTools` returns exactly the flattened tool lists
of the connections whose state is `operating` (connections in any other
state contribute no tools), leaves the server registry untouched, and as a
side effect upserts exactly the returned tools into the manager's
namespaced-name → Tool index — an index `callTool` does not consult for
routing (it routes via the server registry; see the counterexample). -/
theorem getTools_operating_only (st : ManagerState) :
    (getTools st).1 = operatingTools st.servers ∧
    (getTools st).2.tools =
      (getTools st).1.foldl (fun ix t => recSet ix t.name t) st.tools ∧
    (getTools st).2.servers = st.servers := by
  have h := getTools_fold st.servers ([], st.tools)
  simp [getTools, h]

/-! ## Claim C8: cleanup is idempotent and total -/

/-- **C8.** `cleanup` is total for every close behaviour (the embedding of
"never throws", including on an empty registry): a failing individual close
is swallowed — the instance is left as-is rather than rethrowing — while a
successful close marks the instance `closed`; after any call both the
server registry and the tool index are cleared, `getTools` then returns the
empty list, and a second `cleanup` yields the same cleared state. -/
theorem cleanup_idempotent_total (st : ManagerState)
    (closeBeh closeBeh' : Name → Option JsError) :
    (cleanup st closeBeh).2.servers = [] ∧
    (cleanup st closeBeh).2.tools = [] ∧
    (getTools (cleanup st closeBeh).2).1 = [] ∧
    cleanup (cleanup st closeBeh).2 closeBeh' = ([], (cleanup st closeBeh).2) ∧
    (∀ p ∈ st.servers,
      closeServer p.2 (closeBeh p.1) =
        if (closeBeh p.1).isSome then p.2
        else { p.2 with state := McpServerState.closed }) := by
  refine ⟨rfl, rfl, rfl, rfl, ?_⟩
  intro p _
  cases h : closeBeh p.1 <;> simp [closeServer, h]

/-- A close behaviour whose every close throws. -/
def failClose : Name → Option JsError :=
  fun _ => some { code := none, message := "EBUSY" }

/-- Witness for C8 on a concrete one-server registry whose close throws:
teardown still clears everything and the failure is swallowed. -/
theorem cleanup_idempotent_total_witness :
    (cleanup sState failClose).2.servers = [] ∧
    (getTools (cleanup sState failClose).2).1 = [] ∧
    closeServer sInstance (failClose ['s']) =
      if (failClose ['s']).isSome then sInstance
      else { sInstance with state := McpServerState.closed } :=
  ⟨(cleanup_idempotent_total sState failClose failClose).1,
   (cleanup_idempotent_total sState failClose failClose).2.2.1,
   (cleanup_idempotent_total sState failClose failClose).2.2.2.2
     (['s'], sInstance) (List.Mem.head _)⟩

/-! ## Claim C9: discoverConfigs resilience -/

/-- What the outside world did for one configuration file: the read threw
`ENOENT` (file absent), the read threw some other error (permissions, …),
or the read returned text whose `JSON.parse` outcome is given (a syntax
error, or a parsed JSON value of any shape — the source casts it without
structural validation). -/
inductive ReadOutcome where
  | enoent
  | readErr (e : JsError)
  | content (parsed : Except String Json)

/-- `loadConfigFile` (src/utils/mcp-config.ts).  Second component: whether
a warning was logged (`console.warn`).  `ENOENT` is silently `null`; any
other read error or a JSON syntax error logs a warning and yields `null`;
a successfully parsed value is returned as-is (the `as McpConfig` cast
checks nothing). -/
def loadConfigFile : ReadOutcome → Option Json × Bool
  | .enoent => (none, false)
  | .readErr _ => (none, true)
  | .content (.error _) => (none, true)
  | .content (.ok j) => (some j, false)

/-- `discoverConfigs` (src/utils/mcp-config.ts): load the global and the
project file, each through `loadConfigFile`, concurrently and
independently. -/
def discoverConfigs (g p : ReadOutcome) :
    (Option Json × Bool) × (Option Json × Bool) :=
  (loadConfigFile g, loadConfigFile p)

/-- Whether a parsed JSON value has the expected top-level structure of an
`McpConfig` (an object with an `mcpServers` member). -/
def hasMcpServers : Json → Bool
  | .obj fields => (fields.map Prod.fst).contains "mcpServers"
  | _ => false

/-- **C9 counterexample.** A file that is present and parses as JSON but is
*not* the expected structure (here the object `{}` with no `mcpServers`) is
returned as-is by `discoverConfigs` — non-null and without a warning —
contradicting the claim that a present file not parseable *as the expected
structure* yields `null` for its slot with a logged warning.  Only a JSON
syntax error or a non-`ENOENT` read error yields null-with-warning. -/
theorem discoverConfigs_structure_counterexample :
    discoverConfigs (ReadOutcome.content (Except.ok (Json.obj [])))
        ReadOutcome.enoent =
      ((some (Json.obj []), false), (none, false)) ∧
    hasMcpServers (Json.obj []) = false :=
  ⟨rfl, rfl⟩

/-- **C9 (amended).** `discoverConfigs` handles the two slots
independently (each slot's result depends only on its own file): an absent
file yields `null` without a warning, an unreadable file or one that fails
to parse as JSON yields `null` with a logged warning, and a file that
parses as JSON is returned for its slot as-is, even when it lacks the
expected structure (no structural validation happens here) — in particular
a malformed project config never prevents a valid global config from
loading, and vice versa, and no input makes `discoverConfigs` throw (it is
a total function). -/
theorem discoverConfigs_slot_independence (g g' p p' : ReadOutcome) :
    (discoverConfigs g p).1 = (discoverConfigs g p').1 ∧
    (discoverConfigs g p).2 = (discoverConfigs g' p).2 ∧
    loadConfigFile ReadOutcome.enoent = (none, false) ∧
    (∀ e, loadConfigFile (ReadOutcome.readErr e) = (none, true)) ∧
    (∀ m, loadConfigFile (ReadOutcome.content (Except.error m)) =
      (none, true)) ∧
    (∀ j, loadConfigFile (ReadOutcome.content (Except.ok j)) =
      (some j, false)) :=
  ⟨rfl, rfl, rfl, fun _ => rfl, fun _ => rfl, fun _ => rfl⟩

end Yolo
